import Mathlib

/-!
Verification development for the YOLOToolbox annotation module
(`annotation.py`).  The Python code is shallowly embedded: machine
floats are modelled as rationals, Python `int()` truncation toward
zero is `pyInt`, and the `"%.6f"` formatting used when a label file is
written is modelled by rounding to six decimal places.
-/

/-- Python `int(x)` applied to a float: truncation toward zero. -/
def pyInt (q : ℚ) : ℤ := if 0 ≤ q then ⌊q⌋ else ⌈q⌉

/-- Python `str.split()` with no argument: split on runs of whitespace,
dropping empty pieces.  `acc` holds the characters of the current token
in reverse. -/
def splitWsAux : List Char → List Char → List String
  | [], acc => if acc.isEmpty then [] else [String.mk acc.reverse]
  | c :: cs, acc =>
    if c.isWhitespace then
      if acc.isEmpty then splitWsAux cs []
      else String.mk acc.reverse :: splitWsAux cs []
    else splitWsAux cs (c :: acc)

/-- Python `s.split()` (also covers the preceding `s.strip()` in
`line.strip().split()`, which does not change the token list). -/
def pySplit (s : String) : List String := splitWsAux s.toList []

/-- Digit string to natural number; fails unless nonempty and all digits. -/
def digitsToNat : List Char → Option ℕ
  | [] => none
  | cs =>
    if cs.all Char.isDigit then
      some (cs.foldl (fun a c => 10 * a + (c.toNat - 48)) 0)
    else none

/-- Leading and trailing whitespace removal (`int()` and `float()`
strip their argument before parsing). -/
def stripChars (cs : List Char) : List Char :=
  ((cs.dropWhile Char.isWhitespace).reverse.dropWhile Char.isWhitespace).reverse

/-- Python `int(token)` on a decimal token: optional sign then digits.
Returns `none` where the Python call raises `ValueError`. -/
def parsePyInt (s : String) : Option ℤ :=
  match stripChars s.toList with
  | '-' :: ds => (digitsToNat ds).map (fun n => -(n : ℤ))
  | '+' :: ds => (digitsToNat ds).map (fun n => (n : ℤ))
  | ds => (digitsToNat ds).map (fun n => (n : ℤ))

/-- Unsigned decimal literal (`"12"`, `"12.5"`, `"12."`, `".5"`) to an
exact rational.  Scientific notation and `inf`/`nan` are not modelled:
no label token produced or consumed by this program uses them. -/
def parseDecimal (cs : List Char) : Option ℚ :=
  match cs.splitOn '.' with
  | [ip] => (digitsToNat ip).map (fun n => (n : ℚ))
  | [ip, fp] =>
    if ip.isEmpty && fp.isEmpty then none
    else if (ip.all Char.isDigit && fp.all Char.isDigit) && !(ip.isEmpty && fp.isEmpty) then
      some ((ip.foldl (fun a c => 10 * a + (c.toNat - 48)) 0 : ℚ)
        + (fp.foldl (fun a c => 10 * a + (c.toNat - 48)) 0 : ℚ) / (10 : ℚ) ^ fp.length)
    else none
  | _ => none

/-- Python `float(token)` on a plain decimal token, modelled exactly. -/
def parsePyFloat (s : String) : Option ℚ :=
  match stripChars s.toList with
  | '-' :: ds => (parseDecimal ds).map (fun q => -q)
  | '+' :: ds => parseDecimal ds
  | ds => parseDecimal ds

/-- The value actually persisted by `"%.6f"` formatting: the input
rounded to six decimal places (round to nearest; the tie-breaking rule
never matters for the statements proved below). -/
def round6 (q : ℚ) : ℚ := (round (q * 1000000) : ℚ) / 1000000

/-- Decimal numeral of `n % 1000000` padded to exactly six digits. -/
def pad6 (n : ℕ) : String := (Nat.repr (1000000 + n % 1000000)).drop 1

/-- `"%.6f" % q`: the fixed-point numeral with six fractional digits. -/
def fmt6 (q : ℚ) : String :=
  let n : ℤ := round (q * 1000000)
  if n < 0 then
    "-" ++ Nat.repr ((-n).toNat / 1000000) ++ "." ++ pad6 ((-n).toNat)
  else
    Nat.repr (n.toNat / 1000000) ++ "." ++ pad6 n.toNat

/-- A pixel-space bounding box as stored in `self.boxes`. -/
structure Box where
  class_id : ℤ
  class_name : String
  x1 : ℤ
  y1 : ℤ
  x2 : ℤ
  y2 : ℤ
deriving DecidableEq, Repr

/-- Python list indexing `l[i]` including negative-index wraparound;
`none` where Python raises `IndexError`. -/
def pyIndex (l : List String) (i : ℤ) : Option String :=
  let j : ℤ := if i < 0 then i + l.length else i
  if 0 ≤ j then l.get? j.toNat else none

/-- Outcome of one iteration of the label-parsing loop in
`load_image_data`: the line is silently skipped (fewer than five
tokens), contributes a box, or raises (bad numeric token or a failing
class lookup) — and the raise is caught only OUTSIDE the loop. -/
inductive LineResult where
  | skip
  | ok (b : Box)
  | err
deriving DecidableEq, Repr

/-- One iteration of the loop in `load_image_data` (annotation.py
lines 415-430): split the line, require at least five tokens, parse
class id and the four normalized floats, convert to pixel corners with
`int()` truncation, and resolve the class name. -/
def parseLine (classes : List String) (W H : ℤ) (line : String) : LineResult :=
  match pySplit line with
  | p0 :: p1 :: p2 :: p3 :: p4 :: _ =>
    match parsePyInt p0 with
    | none => .err
    | some cid =>
      match parsePyFloat p1, parsePyFloat p2, parsePyFloat p3, parsePyFloat p4 with
      | some xc, some yc, some w, some h =>
        let x1 := pyInt ((xc - w / 2) * W)
        let y1 := pyInt ((yc - h / 2) * H)
        let x2 := pyInt ((xc + w / 2) * W)
        let y2 := pyInt ((yc + h / 2) * H)
        if cid < (classes.length : ℤ) then
          match pyIndex classes cid with
          | some cname => .ok ⟨cid, cname, x1, y1, x2, y2⟩
          | none => .err
        else .ok ⟨cid, toString cid, x1, y1, x2, y2⟩
      | _, _, _, _ => .err
  | _ => .skip

/-- The whole parsing loop of `load_image_data`: the `try` block wraps
the ENTIRE `for` loop, so a raising line keeps the boxes appended so
far and stops — it does not continue with the remaining lines. -/
def loadBoxesAux (classes : List String) (W H : ℤ) (acc : List Box) :
    List String → List Box
  | [] => acc
  | l :: ls =>
    match parseLine classes W H l with
    | .skip => loadBoxesAux classes W H acc ls
    | .ok b => loadBoxesAux classes W H (acc ++ [b]) ls
    | .err => acc

/-- Boxes obtained from the lines of a label file (annotation.py
lines 412-432). -/
def loadBoxes (classes : List String) (W H : ℤ) (lines : List String) : List Box :=
  loadBoxesAux classes W H [] lines

/-- The line `save_annotation` writes for one box (annotation.py lines
748-753), without the trailing newline:
`f"{class_id} {xc:.6f} {yc:.6f} {w:.6f} {h:.6f}"`. -/
def encodeLine (b : Box) (W H : ℤ) : String :=
  let xc : ℚ := ((b.x1 : ℚ) + b.x2) / 2 / W
  let yc : ℚ := ((b.y1 : ℚ) + b.y2) / 2 / H
  let w : ℚ := ((b.x2 : ℚ) - b.x1) / W
  let h : ℚ := ((b.y2 : ℚ) - b.y1) / H
  toString b.class_id ++ " " ++ fmt6 xc ++ " " ++ fmt6 yc ++ " "
    ++ fmt6 w ++ " " ++ fmt6 h

/-- Viewport state: `self.scale_factor` (a float, modelled exactly) and
`self.offset` (a `QPoint`, hence integer pixels). -/
structure Viewport where
  scale : ℚ
  offX : ℤ
  offY : ℤ
deriving DecidableEq, Repr

/-- `img_to_screen` (annotation.py lines 462-466), one coordinate:
`int(x * scale + offset)`. -/
def img_to_screen_c (scale : ℚ) (off : ℤ) (x : ℚ) : ℤ :=
  pyInt (x * scale + off)

/-- `screen_to_img` (annotation.py lines 468-472), one coordinate:
`int((sx - offset) / scale)`. -/
def screen_to_img_c (scale : ℚ) (off : ℤ) (sx : ℚ) : ℤ :=
  pyInt ((sx - off) / scale)

/-- `on_wheel_event` (annotation.py lines 541-567): multiply the scale
by 1.1 or 0.9, clamp to [0.01, 50.0], then recompute the offset about
the cursor; `QPoint.setX(int(...))` truncates toward zero. -/
def on_wheel_event (vp : Viewport) (zoomIn : Bool) (mx my : ℚ) : Viewport :=
  let oldScale := vp.scale
  let rate : ℚ := if zoomIn then 11 / 10 else 9 / 10
  let newScale := max (1 / 100) (min (oldScale * rate) 50)
  let vecX : ℚ := mx - vp.offX
  let vecY : ℚ := my - vp.offY
  { scale := newScale
    offX := pyInt (mx - vecX * (newScale / oldScale))
    offY := pyInt (my - vecY * (newScale / oldScale)) }

/-- Exact screen x-position, after a wheel zoom, of the image point
that was under the cursor before the zoom. -/
def anchorAfterX (vp : Viewport) (zoomIn : Bool) (mx my : ℚ) : ℚ :=
  ((mx - vp.offX) / vp.scale) * (on_wheel_event vp zoomIn mx my).scale
    + ((on_wheel_event vp zoomIn mx my).offX : ℚ)

/-- Exact screen y-position, after a wheel zoom, of the image point
that was under the cursor before the zoom. -/
def anchorAfterY (vp : Viewport) (zoomIn : Bool) (mx my : ℚ) : ℚ :=
  ((my - vp.offY) / vp.scale) * (on_wheel_event vp zoomIn mx my).scale
    + ((on_wheel_event vp zoomIn mx my).offY : ℚ)

/-- A file-system operation performed by the save path.  `openW`
truncates the named file, `wr` appends one line to it. -/
inductive FsOp where
  | openW (p : String)
  | wr (p : String) (line : String)
  | close (p : String)
  | rename (src dst : String)
deriving DecidableEq, Repr

/-- Whether an operation is a rename. -/
def FsOp.isRen : FsOp → Bool
  | .rename _ _ => true
  | _ => false

/-- The sequence of file operations `save_annotation` performs on the
resolved destination path (annotation.py lines 746-753): open the
destination itself with mode `w` and write the encoded lines to it
directly. -/
def saveOps (dest : String) (boxes : List Box) (W H : ℤ) : List FsOp :=
  FsOp.openW dest :: boxes.map (fun b => FsOp.wr dest (encodeLine b W H))
    ++ [FsOp.close dest]

/-- Follows the spec wording for `save` only, for comparison with
`saveOps`: write every line to a temporary file, then rename it over
the destination. -/
def saveOpsSpecAtomic (dest tmp : String) (boxes : List Box) (W H : ℤ) :
    List FsOp :=
  FsOp.openW tmp :: boxes.map (fun b => FsOp.wr tmp (encodeLine b W H))
    ++ [FsOp.close tmp, FsOp.rename tmp dest]

/-- Effect of one file operation on a file system (path to contents). -/
def applyOp (fs : String → Option (List String)) : FsOp → String → Option (List String)
  | .openW p, q => if q = p then some [] else fs q
  | .wr p l, q => if q = p then some ((fs p).getD [] ++ [l]) else fs q
  | .close _, q => fs q
  | .rename s d, q => if q = d then fs s else if q = s then none else fs q

/-- Run a list of file operations. -/
def runOps (fs : String → Option (List String)) : List FsOp → String → Option (List String)
  | [] => fs
  | op :: ops => runOps (applyOp fs op) ops

/-- One entry of `self.image_list_data` (an ImageRecord).  The
`label_types` column is omitted: no operation embedded here reads or
writes it after dataset load. -/
structure ImageRec where
  path : String
  name : String
  hasAnnot : Bool
  annot_count : ℕ
  txt_path : Option String
deriving DecidableEq, Repr

/-- External collaborators: image decoding, label-file reading,
directory existence, and whether opening/writing the label file
succeeds. -/
structure Env where
  readImage : String → Option (ℤ × ℤ)
  readLabel : String → Option (List String)
  dirExists : String → Bool
  writeOk : Bool

/-- Mouse buttons distinguished by the handlers. -/
inductive MButton where
  | left
  | right
  | middle
deriving DecidableEq, Repr

/-- Answer to the unsaved-changes dialog in `check_unsaved_changes`. -/
inductive Reply where
  | yes
  | no
  | cancel
deriving DecidableEq, Repr

/-- The mutable state of `AnnotationModule` together with the widget
state the claims mention: `selection` is the image-list table's
highlighted row, `uiRows` the displayed (annotated?, count) cells,
`btnDrawChecked` the draw-mode toggle, `classIndex`/`classText` the
class combo box, `labelW`/`labelH` the canvas widget size, `warned`
and `errorShown` whether a warning/critical dialog was shown, and
`savedStatus` whether the status bar reports a completed save. -/
structure AnnState where
  drawing : Bool
  boxes : List Box
  current_image_path : Option String
  image_list_data : List ImageRec
  classes : List String
  imageLoaded : Bool
  is_modified : Bool
  last_selected_row : ℤ
  scale_factor : ℚ
  offX : ℤ
  offY : ℤ
  lastMouseX : ℤ
  lastMouseY : ℤ
  panning : Bool
  start_point : Option (ℤ × ℤ)
  current_box : Option (ℤ × ℤ × ℤ × ℤ)
  img_width : ℤ
  img_height : ℤ
  btnDrawChecked : Bool
  classIndex : ℤ
  classText : String
  selection : Option ℤ
  uiRows : List (String × String)
  labelW : ℤ
  labelH : ℤ
  warned : Bool
  errorShown : Bool
  savedStatus : Bool
deriving DecidableEq, Repr

/-- `update_image_list_ui_item` (annotation.py lines 681-688): rewrite
the displayed cells of one list row from `len(self.boxes)` — note it
reads the live box list, not the ImageRecord. -/
def updateRowUi (st : AnnState) (row : ℤ) : AnnState :=
  let mark := if 0 < st.boxes.length then "是" else "否"
  { st with uiRows := st.uiRows.set row.toNat (mark, toString st.boxes.length) }

/-- Set `annot_count` on one ImageRecord (the single-field update done
by `on_mouse_release` and `delete_selected_box`). -/
def setRecAnnotCount (l : List ImageRec) (i : ℕ) (n : ℕ) : List ImageRec :=
  match l.get? i with
  | some r => l.set i { r with annot_count := n }
  | none => l

/-- Set `annot_count := 0` and `has_annotation := false` on one
ImageRecord (done only by `clear_all_boxes`). -/
def setRecCleared (l : List ImageRec) (i : ℕ) : List ImageRec :=
  match l.get? i with
  | some r => l.set i { r with annot_count := 0, hasAnnot := false }
  | none => l

/-- Set `txt_path` and `has_annotation` on one ImageRecord (done by a
successful save). -/
def setRecSaved (l : List ImageRec) (i : ℕ) (tp : String) (hasAnn : Bool) :
    List ImageRec :=
  match l.get? i with
  | some r => l.set i { r with txt_path := some tp, hasAnnot := hasAnn }
  | none => l

/-- `cancel_drawing` (annotation.py lines 662-668). -/
def cancel_drawing (st : AnnState) : AnnState :=
  { st with
    drawing := false
    btnDrawChecked := false
    start_point := none
    current_box := none }

/-- `enable_draw_box` (annotation.py lines 690-700); `checked` is the
toggle state after the click. -/
def enable_draw_box (st : AnnState) (checked : Bool) : AnnState :=
  if !st.imageLoaded then { st with btnDrawChecked := false }
  else { st with btnDrawChecked := checked, drawing := checked }

/-- `on_mouse_press` (annotation.py lines 569-595).  `px`, `py` are the
float event position; `QPointF.toPoint` rounds to nearest. -/
def on_mouse_press (st : AnnState) (button : MButton) (px py : ℚ) : AnnState :=
  if !st.imageLoaded then st
  else if button = MButton.right || button = MButton.middle then
    { st with panning := true, lastMouseX := round px, lastMouseY := round py }
  else if button = MButton.left then
    if st.drawing then
      let ix0 := screen_to_img_c st.scale_factor st.offX px
      let iy0 := screen_to_img_c st.scale_factor st.offY py
      let ix := max 0 (min ix0 st.img_width)
      let iy := max 0 (min iy0 st.img_height)
      { st with start_point := some (ix, iy), current_box := some (ix, iy, ix, iy) }
    else
      { st with panning := true, lastMouseX := round px, lastMouseY := round py }
  else st

/-- `on_mouse_move` (annotation.py lines 597-618). -/
def on_mouse_move (st : AnnState) (px py : ℚ) : AnnState :=
  if !st.imageLoaded then st
  else if st.panning then
    { st with
      offX := st.offX + (round px - st.lastMouseX)
      offY := st.offY + (round py - st.lastMouseY)
      lastMouseX := round px
      lastMouseY := round py }
  else if st.drawing then
    match st.start_point with
    | some sp =>
      let ix0 := screen_to_img_c st.scale_factor st.offX px
      let iy0 := screen_to_img_c st.scale_factor st.offY py
      let ix := max 0 (min ix0 st.img_width)
      let iy := max 0 (min iy0 st.img_height)
      let rect := (min sp.1 ix, min sp.2 iy, max sp.1 ix, max sp.2 iy)
      { st with current_box := some rect }
    | none => st
  else st

/-- `on_mouse_release` (annotation.py lines 620-660). -/
def on_mouse_release (st : AnnState) (px py : ℚ) : AnnState :=
  if !st.imageLoaded then st
  else if st.panning then { st with panning := false }
  else if st.drawing then
    match st.start_point with
    | some sp =>
      if st.classIndex = -1 then cancel_drawing { st with warned := true }
      else
        let ix0 := screen_to_img_c st.scale_factor st.offX px
        let iy0 := screen_to_img_c st.scale_factor st.offY py
        let ix := max 0 (min ix0 st.img_width)
        let iy := max 0 (min iy0 st.img_height)
        let x1 := min sp.1 ix
        let y1 := min sp.2 iy
        let x2 := max sp.1 ix
        let y2 := max sp.2 iy
        let st1 :=
          if 2 < x2 - x1 ∧ 2 < y2 - y1 then
            let newBoxes := st.boxes ++ [⟨st.classIndex, st.classText, x1, y1, x2, y2⟩]
            let stB := { st with boxes := newBoxes, is_modified := true }
            if 0 ≤ stB.last_selected_row then
              let recs := setRecAnnotCount stB.image_list_data
                stB.last_selected_row.toNat stB.boxes.length
              updateRowUi { stB with image_list_data := recs } stB.last_selected_row
            else stB
          else st
        cancel_drawing st1
    | none => st
  else st

/-- `delete_selected_box` (annotation.py lines 702-711); `tableRow` is
`self.annot_info_table.currentRow()`.  It updates `annot_count` on the
record and rewrites the displayed row, but never touches the record's
`has_annotation` field.  It takes no `Env`: the file system is not
consulted. -/
def delete_selected_box (st : AnnState) (tableRow : ℤ) : AnnState :=
  if 0 ≤ tableRow ∧ tableRow < (st.boxes.length : ℤ) then
    let st1 := { st with boxes := st.boxes.eraseIdx tableRow.toNat, is_modified := true }
    if 0 ≤ st1.last_selected_row then
      let recs := setRecAnnotCount st1.image_list_data
        st1.last_selected_row.toNat st1.boxes.length
      updateRowUi { st1 with image_list_data := recs } st1.last_selected_row
    else st1
  else st

/-- `clear_all_boxes` (annotation.py lines 713-723); `confirmYes` is
the answer to the confirmation dialog. -/
def clear_all_boxes (st : AnnState) (confirmYes : Bool) : AnnState :=
  if st.boxes.isEmpty then st
  else if confirmYes then
    let st1 := { st with boxes := [], is_modified := true }
    if 0 ≤ st1.last_selected_row then
      let recs := setRecCleared st1.image_list_data st1.last_selected_row.toNat
      updateRowUi { st1 with image_list_data := recs } st1.last_selected_row
    else st1
  else st

/-- Drop the extension of a file name (the characters from the last
dot on), keeping a leading-dot name intact, as `Path.with_suffix`
does.  The input is the reversed character list of the name. -/
def dropExtRev (rev : List Char) : List Char :=
  match rev.dropWhile (fun c => c ≠ '.') with
  | [] => rev
  | _ :: rest => if rest.isEmpty then rev else rest

/-- `Path(p).with_suffix(".txt")` on a slash-separated path. -/
def withSuffixTxt (p : String) : String :=
  match (p.splitOn "/").reverse with
  | [] => p
  | name :: restRev =>
    let newName := String.mk (dropExtRev name.toList.reverse).reverse ++ ".txt"
    String.intercalate "/" (newName :: restRev).reverse

/-- Replace the LAST occurrence of an `images` path segment by
`labels` (annotation.py lines 736-741 walk the parts from the end). -/
def replaceFirstImages : List String → List String
  | [] => []
  | x :: xs => if x = "images" then "labels" :: xs else x :: replaceFirstImages xs

/-- Substitute `labels` for the last `images` segment of a path. -/
def imagesToLabels (parts : List String) : List String :=
  (replaceFirstImages parts.reverse).reverse

/-- All but the last component of a slash-separated path
(`Path.parent`). -/
def parentDir (p : String) : String :=
  match (p.splitOn "/").reverse with
  | [] => p
  | [_] => ""
  | _ :: restRev => String.intercalate "/" restRev.reverse

/-- The destination label path `save_annotation` resolves
(annotation.py lines 728-744): the record's stored `txt_path` when the
current row has one; otherwise the `images`→`labels` sibling when that
directory exists; otherwise the image path with a `.txt` suffix. -/
def resolveSavePath (env : Env) (st : AnnState) (imgPath : String) : String :=
  let dflt := withSuffixTxt imgPath
  let recTxt : Option String :=
    if 0 ≤ st.last_selected_row then
      match st.image_list_data.get? st.last_selected_row.toNat with
      | some r => r.txt_path
      | none => none
    else none
  match recTxt with
  | some tp => tp
  | none =>
    let parts := imgPath.splitOn "/"
    if parts.contains "images" then
      let labelPath := withSuffixTxt (String.intercalate "/" (imagesToLabels parts))
      if env.dirExists (parentDir labelPath) then labelPath else dflt
    else dflt

/-- `save_annotation` (annotation.py lines 725-764).  `env.writeOk`
says whether opening and writing the resolved file succeeds; on
failure the handler shows a critical dialog (`errorShown`) and — since
`is_modified` is reset only after the write loop — leaves the modified
flag untouched. -/
def save_annot (env : Env) (st : AnnState) : AnnState :=
  match st.current_image_path with
  | none => st
  | some imgPath =>
    let savePath := resolveSavePath env st imgPath
    if env.writeOk then
      let st1 := { st with savedStatus := true, is_modified := false }
      if 0 ≤ st1.last_selected_row then
        let recs := setRecSaved st1.image_list_data st1.last_selected_row.toNat
          savePath (0 < st1.boxes.length)
        updateRowUi { st1 with image_list_data := recs } st1.last_selected_row
      else st1
    else { st with errorShown := true }

/-- `reset_view_fit` (annotation.py lines 443-460). -/
def reset_view_fit (st : AnnState) : AnnState :=
  if !st.imageLoaded then st
  else if st.labelW = 0 || st.labelH = 0 then st
  else
    let scaleW := (st.labelW : ℚ) / st.img_width
    let scaleH := (st.labelH : ℚ) / st.img_height
    let s := min scaleW scaleH * (95 / 100)
    let newW := st.img_width * s
    let newH := st.img_height * s
    { st with
      scale_factor := s
      offX := pyInt ((st.labelW - newW) / 2)
      offY := pyInt ((st.labelH - newH) / 2) }

/-- `load_image_data` (annotation.py lines 392-439): select the row,
read and cache the image, parse the label file through the loop
embedded as `loadBoxes`, and re-fit the view. -/
def load_image_data (env : Env) (st : AnnState) (row : ℤ) : AnnState :=
  if row < 0 then st
  else
    match st.image_list_data.get? row.toNat with
    | none => st
    | some data =>
      let st1 := { st with last_selected_row := row, current_image_path := some data.path }
      match env.readImage data.path with
      | none => { st1 with warned := true }
      | some wh =>
        let st2 := { st1 with
          img_width := wh.1
          img_height := wh.2
          imageLoaded := true
          boxes := []
          current_box := none
          is_modified := false }
        let bs :=
          match data.txt_path with
          | some tp =>
            match env.readLabel tp with
            | some lines => loadBoxes st2.classes wh.1 wh.2 lines
            | none => []
          | none => []
        reset_view_fit { st2 with boxes := bs }

/-- `on_image_list_clicked` (annotation.py lines 376-390) with
`check_unsaved_changes` (lines 359-374) inlined; `reply` is the answer
to the unsaved-changes dialog (consulted only when `is_modified`). -/
def on_image_list_clicked (env : Env) (st : AnnState) (row : ℤ) (reply : Reply) :
    AnnState :=
  if row = st.last_selected_row then st
  else if st.is_modified then
    match reply with
    | .yes => load_image_data env (save_annot env st) row
    | .no => load_image_data env st row
    | .cancel =>
      if st.last_selected_row ≠ -1 then { st with selection := some st.last_selected_row }
      else { st with selection := none }
  else load_image_data env st row

/-- A full click gesture on the image list: the widget first moves the
highlighted row to the clicked row, then fires `cellClicked`. -/
def clickEvent (env : Env) (st : AnnState) (row : ℤ) (reply : Reply) : AnnState :=
  on_image_list_clicked env { st with selection := some row } row reply

/-- Whether a parsing-loop iteration produced a box. -/
def LineResult.isOk : LineResult → Bool
  | .ok _ => true
  | _ => false

/-- A quiescent module state: no dataset loaded, nothing selected,
default view.  Concrete witness states below are record updates of
this one. -/
def stBase : AnnState :=
  ⟨false, [], none, [], [], false, false, -1, 1, 0, 0, 0, 0, false, none, none,
    0, 0, false, -1, "", none, [], 800, 600, false, false, false⟩

/-- An environment whose label-file write raises. -/
def envFail : Env := ⟨fun _ => none, fun _ => none, fun _ => false, false⟩

/-- An environment whose label-file write succeeds. -/
def envOk : Env := ⟨fun _ => none, fun _ => none, fun _ => false, true⟩

/-- A state displaying a one-box image: row 0 selected, one stored
box, one ImageRecord with a label file on disk. -/
def st7 : AnnState :=
  { stBase with
    imageLoaded := true
    boxes := [⟨0, "c", 1, 1, 9, 9⟩]
    image_list_data := [⟨"a.jpg", "a.jpg", true, 1, some "a.txt"⟩]
    last_selected_row := 0
    selection := some 0
    uiRows := [("是", "1")]
    img_width := 100
    img_height := 100
    is_modified := false
    current_image_path := some "a.jpg" }

/-- A modified state with a current image, for exercising the save
handler. -/
def st8 : AnnState :=
  { stBase with current_image_path := some "a.jpg", is_modified := true }

/-- A mid-gesture state: draw mode on, class 0 selected, gesture
started at image point (5,5) on a 100x100 image shown at scale 1 and
zero offset. -/
def st9 : AnnState :=
  { stBase with
    imageLoaded := true
    drawing := true
    btnDrawChecked := true
    start_point := some (5, 5)
    current_box := some (5, 5, 5, 5)
    classIndex := 0
    classText := "c"
    img_width := 100
    img_height := 100 }

/-- The coordinate round trip decode(encode(b, W, H)): the exact
center/size rationals of `encodeLine` pass through the six-decimal
serialization (`round6`, the value printed by `fmt6` and read back by
`parsePyFloat`) and are decoded by the pixel conversion of
`parseLine`. -/
def decode_encode_nums (b : Box) (W H : ℤ) : Box :=
  let xc := round6 (((b.x1 : ℚ) + b.x2) / 2 / W)
  let yc := round6 (((b.y1 : ℚ) + b.y2) / 2 / H)
  let w := round6 (((b.x2 : ℚ) - b.x1) / W)
  let h := round6 (((b.y2 : ℚ) - b.y1) / H)
  ⟨b.class_id, toString b.class_id,
    pyInt ((xc - w / 2) * W), pyInt ((yc - h / 2) * H),
    pyInt ((xc + w / 2) * W), pyInt ((yc + h / 2) * H)⟩

/- The Batteries rational-arithmetic operations are `irreducible`;
make them reducible for elaboration so that concrete states of the
embedded program can be evaluated by `decide`. -/
attribute [local semireducible] Rat.add Rat.mul Rat.sub Rat.inv Rat.ofScientific

/-! Shared arithmetic facts about `pyInt` and `round6`. -/

/-- Truncation toward zero moves a rational by strictly less than 1. -/
theorem abs_sub_pyInt_lt (q : ℚ) : |q - (pyInt q : ℚ)| < 1 := by
  unfold pyInt
  split_ifs with h
  · rw [abs_of_nonneg (by linarith [Int.floor_le q])]
    linarith [Int.lt_floor_add_one q]
  · rw [abs_of_nonpos (by linarith [Int.le_ceil q])]
    linarith [Int.ceil_lt_add_one q]

/-- Truncating a nonnegative integer perturbed by less than 1 lands
within one of that integer. -/
theorem pyInt_near (n : ℤ) (d : ℚ) (hn : 0 ≤ n) (hd : |d| < 1) :
    |pyInt ((n : ℚ) + d) - n| ≤ 1 := by
  obtain ⟨hd1, hd2⟩ := abs_lt.mp hd
  unfold pyInt
  split_ifs with h
  · rw [Int.floor_int_add]
    have h1 : -1 ≤ ⌊d⌋ := by
      rw [Int.le_floor]
      push_cast
      linarith
    have h2 : ⌊d⌋ < 1 := by
      rw [Int.floor_lt]
      push_cast
      linarith
    rw [abs_le]
    omega
  · push_neg at h
    have hn0 : n = 0 := by
      by_contra hne
      have h1 : (1 : ℚ) ≤ (n : ℚ) := by
        have : 1 ≤ n := by omega
        exact_mod_cast this
      linarith
    subst hn0
    simp only [Int.cast_zero, zero_add, sub_zero]
    have h1 : ⌈d⌉ ≤ 1 := by
      rw [Int.ceil_le]
      push_cast
      linarith
    have h2 : (-1 : ℤ) < ⌈d⌉ := by
      have h3 := Int.le_ceil d
      have h4 : (-1 : ℚ) < (⌈d⌉ : ℚ) := lt_of_lt_of_le hd1 h3
      exact_mod_cast h4
    rw [abs_le]
    omega

/-- Rounding to six decimal places moves a rational by at most
half of 10^-6. -/
theorem round6_err (q : ℚ) : |round6 q - q| ≤ 1 / 2000000 := by
  have h := abs_sub_round (q * 1000000)
  have h2 : round6 q - q = ((round (q * 1000000) : ℚ) - q * 1000000) / 1000000 := by
    unfold round6
    ring
  rw [h2, abs_div, abs_sub_comm]
  have h3 : |(1000000 : ℚ)| = 1000000 := by norm_num
  rw [h3]
  linarith

/-- The anchor arithmetic of the wheel handler: for any new scale, the
screen drift of the cursor-anchored image point is exactly the
truncation error of the recomputed offset. -/
theorem anchor_aux (old ns off mx : ℚ) :
    |((mx - off) / old) * ns + (pyInt (mx - (mx - off) * (ns / old)) : ℚ) - mx| < 1 := by
  have h := abs_sub_pyInt_lt (mx - (mx - off) * (ns / old))
  have e : ((mx - off) / old) * ns + (pyInt (mx - (mx - off) * (ns / old)) : ℚ) - mx
      = (pyInt (mx - (mx - off) * (ns / old)) : ℚ) - (mx - (mx - off) * (ns / old)) := by
    ring
  rw [e, abs_sub_comm]
  exact h

/-- C3 counterexample: at scale 1, offset (0,0), a zoom-out wheel step
at cursor (3,3) puts the previously anchored image point at screen
x = 2.7, not 3 — the offset truncation to integer pixels breaks exact
anchor preservation. -/
theorem C3_ctr : anchorAfterX ⟨1, 0, 0⟩ false 3 3 ≠ 3 := by decide

/-- C3 (amended): after a wheel zoom from any viewport whose scale is
inside the clamp range, the image point that was under the cursor is
under the cursor to within strictly less than one screen pixel in each
axis; the sub-pixel drift is exactly the `int()` truncation of the
recomputed offset, and the untruncated offset formula is exact. -/
theorem C3_zoom_anchor (vp : Viewport) (zoomIn : Bool) (mx my : ℚ)
    (hs1 : 1 / 100 ≤ vp.scale) (hs2 : vp.scale ≤ 50) :
    |anchorAfterX vp zoomIn mx my - mx| < 1 ∧
    |anchorAfterY vp zoomIn mx my - my| < 1 := by
  constructor
  · exact anchor_aux vp.scale
      (max (1 / 100) (min (vp.scale * (if zoomIn then (11 : ℚ) / 10 else 9 / 10)) 50))
      vp.offX mx
  · exact anchor_aux vp.scale
      (max (1 / 100) (min (vp.scale * (if zoomIn then (11 : ℚ) / 10 else 9 / 10)) 50))
      vp.offY my

/-- Witness for C3 at a concrete viewport and cursor. -/
theorem C3_w : (1 : ℚ) / 100 ≤ (1 : ℚ) ∧ (1 : ℚ) ≤ 50 ∧
    |anchorAfterX ⟨1, 0, 0⟩ false 3 3 - 3| < 1 := by
  refine ⟨by norm_num, by norm_num, ?_⟩
  exact (C3_zoom_anchor ⟨1, 0, 0⟩ false 3 3 (by norm_num) (by norm_num)).1

/-- C5 counterexample: at scale 0.01 (inside the clamp range) and zero
offset, image point 99 of a 100-wide image maps to screen pixel 0, and
mapping back gives image point 0 — an error of 99 pixels, far beyond
the claimed 1. -/
theorem C5_ctr :
    1 < |screen_to_img_c (1 / 100) 0 ((img_to_screen_c (1 / 100) 0 99 : ℤ) : ℚ) - 99| := by
  decide

/-- C5 (amended): the screen/image round trip returns to within one
pixel for every viewport whose scale is at least 1 (and any integer
offset and nonnegative integer point); below scale 1 several image
pixels share a screen pixel and the error can reach about 1/scale, as
the counterexample shows. -/
theorem C5_roundtrip (s : ℚ) (off : ℤ) (x : ℤ) (hx : 0 ≤ x)
    (hs : 1 ≤ s) (hs2 : s ≤ 50) :
    |screen_to_img_c s off ((img_to_screen_c s off (x : ℚ) : ℤ) : ℚ) - x| ≤ 1 := by
  have hs0 : (0 : ℚ) < s := lt_of_lt_of_le one_pos hs
  have h1 : |((x : ℚ) * s + (off : ℚ)) - (pyInt ((x : ℚ) * s + off) : ℚ)| < 1 :=
    abs_sub_pyInt_lt _
  have heq : (((pyInt ((x : ℚ) * s + off) : ℤ) : ℚ) - off) / s
      = (x : ℚ) + ((pyInt ((x : ℚ) * s + off) : ℚ) - ((x : ℚ) * s + off)) / s := by
    field_simp
    ring
  have hd : |((pyInt ((x : ℚ) * s + off) : ℚ) - ((x : ℚ) * s + off)) / s| < 1 := by
    rw [abs_div, abs_of_pos hs0]
    calc |(pyInt ((x : ℚ) * s + off) : ℚ) - ((x : ℚ) * s + off)| / s
        ≤ |(pyInt ((x : ℚ) * s + off) : ℚ) - ((x : ℚ) * s + off)| :=
          div_le_self (abs_nonneg _) hs
      _ < 1 := by rw [abs_sub_comm]; exact h1
  have hmain := pyInt_near x _ hx hd
  simp only [screen_to_img_c, img_to_screen_c]
  rw [heq]
  exact hmain

/-- Witness for C5 at a concrete viewport state and point. -/
theorem C5_w : ((0 : ℤ) ≤ 7 ∧ (1 : ℚ) ≤ 2 ∧ (2 : ℚ) ≤ 50) ∧
    |screen_to_img_c 2 5 ((img_to_screen_c 2 5 ((7 : ℤ) : ℚ) : ℤ) : ℚ) - 7| ≤ 1 := by
  refine ⟨⟨by norm_num, by norm_num, by norm_num⟩, ?_⟩
  exact C5_roundtrip 2 5 7 (by norm_num) (by norm_num) (by norm_num)

/-- Truncation of a rational within 3/4 of a nonnegative integer stays
within one of that integer. -/
theorem pyInt_of_abs_le (t : ℤ) (r : ℚ) (ht : 0 ≤ t) (hr : |r - t| ≤ 3 / 4) :
    |pyInt r - t| ≤ 1 := by
  have h1 : |r - (t : ℚ)| < 1 := lt_of_le_of_lt hr (by norm_num)
  have h2 := pyInt_near t (r - t) ht h1
  rw [show (t : ℚ) + (r - t) = r by ring] at h2
  exact h2

/-- Six-decimal rounding of a center/size pair perturbs the recovered
pixel coordinate by at most 3/4 when the image dimension is at most
10^6. -/
theorem comb_err (q1 q2 Wq c : ℚ) (hc : |c| = 1 / 2) (hW0 : 0 < Wq)
    (hW6 : Wq ≤ 1000000) :
    |(round6 q1 + c * round6 q2) * Wq - (q1 + c * q2) * Wq| ≤ 3 / 4 := by
  have e1 := round6_err q1
  have e2 := round6_err q2
  have heq : (round6 q1 + c * round6 q2) * Wq - (q1 + c * q2) * Wq
      = (round6 q1 - q1 + c * (round6 q2 - q2)) * Wq := by ring
  rw [heq, abs_mul, abs_of_pos hW0]
  have h4 : |c * (round6 q2 - q2)| ≤ 1 / 2 * (1 / 2000000) := by
    rw [abs_mul, hc]
    have h5 := abs_nonneg (round6 q2 - q2)
    nlinarith
  have h3 : |round6 q1 - q1 + c * (round6 q2 - q2)| ≤ 3 / 4000000 := by
    calc |round6 q1 - q1 + c * (round6 q2 - q2)|
        ≤ |round6 q1 - q1| + |c * (round6 q2 - q2)| := abs_add _ _
      _ ≤ 1 / 2000000 + 1 / 2 * (1 / 2000000) := add_le_add e1 h4
      _ ≤ 3 / 4000000 := by norm_num
  calc |round6 q1 - q1 + c * (round6 q2 - q2)| * Wq
      ≤ 3 / 4000000 * Wq := mul_le_mul_of_nonneg_right h3 hW0.le
    _ ≤ 3 / 4000000 * 1000000 := by nlinarith
    _ = 3 / 4 := by norm_num

/-- One axis of the label round trip: both recovered endpoints are
within one pixel of the originals when the dimension is at most 10^6. -/
theorem axis_roundtrip (lo hi W : ℤ) (hW0 : 0 < W) (hW6 : W ≤ 1000000)
    (hlo : 0 ≤ lo) (hlohi : lo < hi) :
    |pyInt ((round6 (((lo : ℚ) + hi) / 2 / W) - round6 (((hi : ℚ) - lo) / W) / 2) * W) - lo| ≤ 1 ∧
    |pyInt ((round6 (((lo : ℚ) + hi) / 2 / W) + round6 (((hi : ℚ) - lo) / W) / 2) * W) - hi| ≤ 1 := by
  have hWq : (0 : ℚ) < W := by exact_mod_cast hW0
  have hW6q : (W : ℚ) ≤ 1000000 := by exact_mod_cast hW6
  have hWne : (W : ℚ) ≠ 0 := ne_of_gt hWq
  have hhi : 0 ≤ hi := by omega
  constructor
  · have hb := comb_err (((lo : ℚ) + hi) / 2 / W) (((hi : ℚ) - lo) / W) (W : ℚ)
      (-1 / 2) (by norm_num) hWq hW6q
    have hexact : ((((lo : ℚ) + hi) / 2 / W) + (-1 / 2) * (((hi : ℚ) - lo) / W)) * W
        = (lo : ℚ) := by
      field_simp
      ring
    rw [hexact] at hb
    have harg : (round6 (((lo : ℚ) + hi) / 2 / W) - round6 (((hi : ℚ) - lo) / W) / 2) * (W : ℚ)
        = (round6 (((lo : ℚ) + hi) / 2 / W) + (-1 / 2) * round6 (((hi : ℚ) - lo) / W)) * (W : ℚ) := by
      ring
    rw [harg]
    exact pyInt_of_abs_le lo _ hlo hb
  · have hb := comb_err (((lo : ℚ) + hi) / 2 / W) (((hi : ℚ) - lo) / W) (W : ℚ)
      (1 / 2) (by norm_num) hWq hW6q
    have hexact : ((((lo : ℚ) + hi) / 2 / W) + 1 / 2 * (((hi : ℚ) - lo) / W)) * W
        = (hi : ℚ) := by
      field_simp
      ring
    rw [hexact] at hb
    have harg : (round6 (((lo : ℚ) + hi) / 2 / W) + round6 (((hi : ℚ) - lo) / W) / 2) * (W : ℚ)
        = (round6 (((lo : ℚ) + hi) / 2 / W) + 1 / 2 * round6 (((hi : ℚ) - lo) / W)) * (W : ℚ) := by
      ring
    rw [harg]
    exact pyInt_of_abs_le hi _ hhi hb

/-- C4 counterexample: the claim quantifies over ALL dimensions
`W, H > 0`, but for a 10^7-wide image the box with `x1 = 2`, `x2 = 6`
serializes both center and width to `0.000000`, and re-decoding gives
`x2 = 0`, six pixels away from the original — beyond the claimed ±1. -/
theorem C4_ctr :
    parseLine [] 10000000 800 (encodeLine ⟨0, "c", 2, 100, 6, 300⟩ 10000000 800)
      = LineResult.ok ⟨0, "0", 0, 100, 0, 300⟩ ∧
    ¬ |(0 : ℤ) - 6| ≤ 1 := by
  decide

/-- C4 (amended): for every valid box inside the image and dimensions
`0 < W, H ≤ 10^6`, the decode∘encode round trip reproduces every
coordinate within ±1 pixel (the six-decimal serialization loses at
most 5·10^-7·W pixels per coordinate, which only stays below one pixel
for dimensions up to about 10^6 — the counterexample shows failure at
10^7); moreover the concrete scenario holds exactly: the 1000×800
image with box (100,100,300,300) and class 2 is saved as the exact
line `2 0.200000 0.250000 0.200000 0.250000`, and re-decoding that
line against the same dimensions reproduces the box. -/
theorem C4_roundtrip (b : Box) (W H : ℤ)
    (hW : 0 < W) (hWle : W ≤ 1000000) (hH : 0 < H) (hHle : H ≤ 1000000)
    (hx1 : 0 ≤ b.x1) (hx12 : b.x1 < b.x2) (hx2 : b.x2 ≤ W)
    (hy1 : 0 ≤ b.y1) (hy12 : b.y1 < b.y2) (hy2 : b.y2 ≤ H) :
    (|(decode_encode_nums b W H).x1 - b.x1| ≤ 1 ∧
     |(decode_encode_nums b W H).y1 - b.y1| ≤ 1 ∧
     |(decode_encode_nums b W H).x2 - b.x2| ≤ 1 ∧
     |(decode_encode_nums b W H).y2 - b.y2| ≤ 1) ∧
    encodeLine ⟨2, "c", 100, 100, 300, 300⟩ 1000 800
      = "2 0.200000 0.250000 0.200000 0.250000" ∧
    parseLine ["a", "b", "c"] 1000 800 "2 0.200000 0.250000 0.200000 0.250000"
      = LineResult.ok ⟨2, "c", 100, 100, 300, 300⟩ := by
  refine ⟨⟨?_, ?_, ?_, ?_⟩, by decide, by decide⟩
  · exact (axis_roundtrip b.x1 b.x2 W hW hWle hx1 hx12).1
  · exact (axis_roundtrip b.y1 b.y2 H hH hHle hy1 hy12).1
  · exact (axis_roundtrip b.x1 b.x2 W hW hWle hx1 hx12).2
  · exact (axis_roundtrip b.y1 b.y2 H hH hHle hy1 hy12).2

/-- Witness for C4 at the scenario box and dimensions. -/
theorem C4_w :
    |(decode_encode_nums ⟨2, "c", 100, 100, 300, 300⟩ 1000 800).x1 - 100| ≤ 1 ∧
    encodeLine ⟨2, "c", 100, 100, 300, 300⟩ 1000 800
      = "2 0.200000 0.250000 0.200000 0.250000" := by
  have h := C4_roundtrip ⟨2, "c", 100, 100, 300, 300⟩ 1000 800
    (by norm_num) (by norm_num) (by norm_num) (by norm_num)
    (by norm_num) (by norm_num) (by norm_num)
    (by norm_num) (by norm_num) (by norm_num)
  exact ⟨h.1.1, h.2.1⟩

/-- The parsing loop with an accumulator splits off its accumulator. -/
theorem loadBoxesAux_acc (classes : List String) (W H : ℤ) (ls : List String)
    (acc : List Box) :
    loadBoxesAux classes W H acc ls = acc ++ loadBoxesAux classes W H [] ls := by
  induction ls generalizing acc with
  | nil => simp [loadBoxesAux]
  | cons l ls ih =>
    cases hp : parseLine classes W H l with
    | skip => simp only [loadBoxesAux, hp]; rw [ih acc]
    | ok b =>
      simp only [loadBoxesAux, hp, List.nil_append]
      rw [ih (acc ++ [b]), ih [b]]
      simp
    | err => simp [loadBoxesAux, hp]

/-- One step of the parsing loop. -/
theorem loadBoxes_cons (classes : List String) (W H : ℤ) (l : String)
    (ls : List String) :
    loadBoxes classes W H (l :: ls)
      = match parseLine classes W H l with
        | .skip => loadBoxes classes W H ls
        | .ok b => b :: loadBoxes classes W H ls
        | .err => [] := by
  cases hp : parseLine classes W H l with
  | skip => simp [loadBoxes, loadBoxesAux, hp]
  | ok b =>
    simp only [loadBoxes, loadBoxesAux, hp, List.nil_append]
    rw [loadBoxesAux_acc classes W H ls [b]]
    simp
  | err => simp [loadBoxes, loadBoxesAux, hp]

/-- Over a block of lines that all parse to boxes, the loop
concatenates. -/
theorem loadBoxes_wf_append (classes : List String) (W H : ℤ)
    (pre rest : List String)
    (hpre : ∀ l ∈ pre, (parseLine classes W H l).isOk = true) :
    loadBoxes classes W H (pre ++ rest)
      = loadBoxes classes W H pre ++ loadBoxes classes W H rest := by
  induction pre with
  | nil => simp [loadBoxes, loadBoxesAux]
  | cons l ls ih =>
    have hl := hpre l (List.mem_cons_self l ls)
    obtain ⟨b, hb⟩ : ∃ b, parseLine classes W H l = LineResult.ok b := by
      cases hp : parseLine classes W H l with
      | ok b => exact ⟨b, rfl⟩
      | skip => rw [hp] at hl; simp [LineResult.isOk] at hl
      | err => rw [hp] at hl; simp [LineResult.isOk] at hl
    rw [List.cons_append, loadBoxes_cons, loadBoxes_cons, hb]
    rw [ih (fun x hx => hpre x (List.mem_cons_of_mem _ hx))]
    simp

/-- A block of lines that all parse to boxes yields one box per
line. -/
theorem loadBoxes_wf_length (classes : List String) (W H : ℤ)
    (ls : List String)
    (h : ∀ l ∈ ls, (parseLine classes W H l).isOk = true) :
    (loadBoxes classes W H ls).length = ls.length := by
  induction ls with
  | nil => simp [loadBoxes, loadBoxesAux]
  | cons l ls ih =>
    have hl := h l (List.mem_cons_self l ls)
    obtain ⟨b, hb⟩ : ∃ b, parseLine classes W H l = LineResult.ok b := by
      cases hp : parseLine classes W H l with
      | ok b => exact ⟨b, rfl⟩
      | skip => rw [hp] at hl; simp [LineResult.isOk] at hl
      | err => rw [hp] at hl; simp [LineResult.isOk] at hl
    rw [loadBoxes_cons, hb]
    simp [ih (fun x hx => h x (List.mem_cons_of_mem _ hx))]

/-- C1 counterexample: a label file whose FIRST line fails numeric
parsing (token `x`), followed by N = 2 well-formed lines, loads ZERO
boxes: the exception is caught outside the `for` loop, so the two
remaining well-formed lines are never processed — the claim demands
N-1 or N boxes and never zero. -/
theorem C1_ctr :
    loadBoxes [] 100 100
      ["x 0.5 0.5 0.5 0.5", "0 0.5 0.5 0.5 0.5", "1 0.5 0.5 0.2 0.2"] = [] ∧
    (parseLine [] 100 100 "0 0.5 0.5 0.5 0.5").isOk = true ∧
    (parseLine [] 100 100 "1 0.5 0.5 0.2 0.2").isOk = true := by
  decide

/-- C1 (amended): a malformed line is tolerated only when its token
count is below five — such a line is skipped and every other line is
still processed, so the file yields exactly N boxes; a line whose
tokens fail numeric parsing instead raises out of the loop, keeping
the boxes parsed so far and dropping the rest of the file. -/
theorem C1_load (classes : List String) (W H : ℤ) (pre post : List String)
    (bad : String)
    (hpre : ∀ l ∈ pre, (parseLine classes W H l).isOk = true)
    (hpost : ∀ l ∈ post, (parseLine classes W H l).isOk = true) :
    (parseLine classes W H bad = LineResult.skip →
      (loadBoxes classes W H (pre ++ bad :: post)).length
        = pre.length + post.length) ∧
    (parseLine classes W H bad = LineResult.err →
      loadBoxes classes W H (pre ++ bad :: post) = loadBoxes classes W H pre) := by
  constructor
  · intro hskip
    rw [loadBoxes_wf_append classes W H pre (bad :: post) hpre, loadBoxes_cons, hskip]
    simp only [List.length_append]
    rw [loadBoxes_wf_length classes W H pre hpre,
      loadBoxes_wf_length classes W H post hpost]
  · intro herr
    rw [loadBoxes_wf_append classes W H pre (bad :: post) hpre, loadBoxes_cons, herr]
    simp

/-- Witness for C1: a short line among two well-formed lines is
skipped (two boxes survive), while a numerically bad line drops the
tail of the file. -/
theorem C1_w :
    (loadBoxes [] 100 100
      (["0 0.5 0.5 0.5 0.5"] ++ "9 9" :: ["1 0.5 0.5 0.2 0.2"])).length = 2 ∧
    loadBoxes [] 100 100 (["0 0.5 0.5 0.5 0.5"] ++ "z 0 0 0 0" :: ["1 0.5 0.5 0.2 0.2"])
      = loadBoxes [] 100 100 ["0 0.5 0.5 0.5 0.5"] := by
  have h1 := C1_load [] 100 100 ["0 0.5 0.5 0.5 0.5"] ["1 0.5 0.5 0.2 0.2"]
    "9 9" (by decide) (by decide)
  have h2 := C1_load [] 100 100 ["0 0.5 0.5 0.5 0.5"] ["1 0.5 0.5 0.2 0.2"]
    "z 0 0 0 0" (by decide) (by decide)
  exact ⟨h1.1 (by decide), h2.2 (by decide)⟩

/-- Running the first k of the per-line write operations leaves the
file holding exactly the first k lines. -/
theorem runOps_wr_take (dest : String) (ls : List String) (k : ℕ)
    (fs : String → Option (List String)) (acc : List String)
    (hfs : fs dest = some acc) (hk : k ≤ ls.length) :
    runOps fs ((ls.map (fun l => FsOp.wr dest l)).take k) dest
      = some (acc ++ ls.take k) := by
  induction ls generalizing k fs acc with
  | nil =>
    have hk0 : k = 0 := by simpa using hk
    subst hk0
    simp [runOps, hfs]
  | cons l ls ih =>
    cases k with
    | zero => simp [runOps, hfs]
    | succ k =>
      simp only [List.map_cons, List.take_succ_cons, runOps]
      have happ : applyOp fs (FsOp.wr dest l) dest = some (acc ++ [l]) := by
        simp [applyOp, hfs]
      have hrec := ih k (applyOp fs (FsOp.wr dest l)) (acc ++ [l]) happ
        (by simpa using hk)
      rw [hrec]
      simp

/-- C2 counterexample: saving two boxes over an existing label file,
interrupted after the open and the first write, leaves the destination
holding exactly one of the two encoded lines — neither the old content
nor the complete new content, i.e. a half-written label file; the
trace also contains no rename of a temporary file. -/
theorem C2_ctr :
    runOps (fun q => if q = "d.txt" then some ["old"] else none)
        ((saveOps "d.txt" [⟨0, "a", 0, 0, 10, 10⟩, ⟨1, "b", 1, 1, 5, 5⟩] 100 100).take 2)
        "d.txt"
      = some ["0 0.050000 0.050000 0.100000 0.100000"] ∧
    runOps (fun q => if q = "d.txt" then some ["old"] else none)
        (saveOps "d.txt" [⟨0, "a", 0, 0, 10, 10⟩, ⟨1, "b", 1, 1, 5, 5⟩] 100 100)
        "d.txt"
      = some ["0 0.050000 0.050000 0.100000 0.100000",
          "1 0.030000 0.030000 0.040000 0.040000"] ∧
    (["0 0.050000 0.050000 0.100000 0.100000"] ≠ (["old"] : List String)) ∧
    (["0 0.050000 0.050000 0.100000 0.100000"]
      ≠ ["0 0.050000 0.050000 0.100000 0.100000",
          "1 0.030000 0.030000 0.040000 0.040000"]) := by
  decide

/-- C2 (amended): `save_annotation` writes the encoded lines directly
into the destination file — an open that truncates it, one write per
box, a close; the trace contains no temporary file and no rename, and
interrupting it after the open and k writes leaves the destination
holding exactly the first k encoded lines, so a crash mid-write CAN
leave a half-written label file. -/
theorem C2_save (dest : String) (boxes : List Box) (W H : ℤ)
    (fs : String → Option (List String)) (k : ℕ) (hk : k ≤ boxes.length) :
    runOps fs ((saveOps dest boxes W H).take (k + 1)) dest
      = some ((boxes.map (fun b => encodeLine b W H)).take k) ∧
    (saveOps dest boxes W H).all (fun op => !op.isRen) = true := by
  constructor
  · have h1 : (saveOps dest boxes W H).take (k + 1)
        = FsOp.openW dest
          :: (boxes.map (fun b => FsOp.wr dest (encodeLine b W H))).take k := by
      simp only [saveOps]
      rw [List.take_append_of_le_length (by simpa using Nat.succ_le_succ hk),
        List.take_succ_cons]
    rw [h1]
    simp only [runOps]
    have happ : applyOp fs (FsOp.openW dest) dest = some [] := by
      simp [applyOp]
    have hmap : boxes.map (fun b => FsOp.wr dest (encodeLine b W H))
        = (boxes.map (fun b => encodeLine b W H)).map (fun l => FsOp.wr dest l) := by
      simp only [List.map_map]
      rfl
    rw [hmap]
    have hrec := runOps_wr_take dest (boxes.map (fun b => encodeLine b W H)) k
      (applyOp fs (FsOp.openW dest)) [] happ (by simpa using hk)
    simpa using hrec
  · rw [List.all_eq_true]
    intro op hop
    simp only [saveOps, List.mem_cons, List.mem_append, List.mem_map,
      List.mem_nil_iff, or_false] at hop
    rcases hop with (rfl | ⟨b, hb, rfl⟩) | rfl <;> rfl

/-- Witness for C2 with one box and an interruption after its write. -/
theorem C2_w :
    runOps (fun _ => none) ((saveOps "d.txt" [⟨0, "a", 0, 0, 10, 10⟩] 100 100).take 2)
        "d.txt"
      = some ((([⟨0, "a", 0, 0, 10, 10⟩] : List Box).map
          (fun b => encodeLine b 100 100)).take 1) ∧
    (saveOps "d.txt" [⟨0, "a", 0, 0, 10, 10⟩] 100 100).all (fun op => !op.isRen) = true := by
  exact C2_save "d.txt" [⟨0, "a", 0, 0, 10, 10⟩] 100 100 (fun _ => none) 1 (by decide)

/-- C6: clicking another image row while the current one has unsaved
changes and answering "cancel" performs no switch at all: the whole
session state — current image, box list, modified flag, and the list
selection (which the widget had already moved to the clicked row) — is
restored to exactly what it was before the click. -/
theorem C6_cancel (env : Env) (st : AnnState) (row : ℤ)
    (hmod : st.is_modified = true)
    (hrow : row ≠ st.last_selected_row)
    (hlast : 0 ≤ st.last_selected_row)
    (hsel : st.selection = some st.last_selected_row) :
    clickEvent env st row Reply.cancel = st := by
  have hne : st.last_selected_row ≠ -1 := by omega
  dsimp only [clickEvent, on_image_list_clicked]
  rw [if_neg hrow, hmod, if_pos rfl, if_pos hne, ← hmod, ← hsel]

/-- Witness for C6 on the concrete one-image state with a pending
edit. -/
theorem C6_w :
    ({ st7 with is_modified := true } : AnnState).is_modified = true ∧
    clickEvent envOk { st7 with is_modified := true } 1 Reply.cancel
      = { st7 with is_modified := true } := by
  refine ⟨rfl, ?_⟩
  exact C6_cancel envOk { st7 with is_modified := true } 1 rfl (by decide) (by decide) rfl

/-- C7 counterexample: deleting the only box updates the record's
`annot_count` to 0 and repaints the row as unannotated, but the
record's `has_annotation` field is NOT set to false — it stays true
(only `clear_all_boxes` and a save rewrite it). -/
theorem C7_ctr :
    ((delete_selected_box st7 0).image_list_data.map ImageRec.hasAnnot) = [true] ∧
    ((delete_selected_box st7 0).image_list_data.map ImageRec.annot_count) = [0] ∧
    (delete_selected_box st7 0).boxes = [] := by
  decide

/-- C7 (amended): deleting the only box empties the store, sets the
record's `annot_count` to 0, marks the change unsaved, and rewrites
the displayed list row to "not annotated / 0" — all without any file
system access (`delete_selected_box` takes no environment) — but the
record's `has_annotation` flag is left unchanged rather than set to
false. -/
theorem C7_delete (st : AnnState) (b : Box) (r : ImageRec)
    (hb : st.boxes = [b]) (hlsr : 0 ≤ st.last_selected_row)
    (hrec : st.image_list_data.get? st.last_selected_row.toNat = some r) :
    (delete_selected_box st 0).boxes = [] ∧
    (delete_selected_box st 0).image_list_data.get? st.last_selected_row.toNat
      = some { r with annot_count := 0 } ∧
    ({ r with annot_count := 0 } : ImageRec).hasAnnot = r.hasAnnot ∧
    (delete_selected_box st 0).uiRows
      = st.uiRows.set st.last_selected_row.toNat ("否", "0") ∧
    (delete_selected_box st 0).is_modified = true := by
  have hlen : st.last_selected_row.toNat < st.image_list_data.length := by
    by_contra hge
    rw [List.get?_eq_none.mpr (by omega)] at hrec
    exact Option.noConfusion hrec
  have hcond : (0 : ℤ) ≤ 0 ∧ (0 : ℤ) < (st.boxes.length : ℤ) := by
    rw [hb]
    exact ⟨le_refl 0, by norm_num⟩
  dsimp only [delete_selected_box]
  rw [if_pos hcond, hb]
  rw [if_pos hlsr]
  dsimp only [updateRowUi, setRecAnnotCount, List.eraseIdx, List.length]
  rw [hrec]
  refine ⟨rfl, ?_, rfl, rfl, rfl⟩
  exact List.get?_set_eq_of_lt _ hlen

/-- Witness for C7 on the concrete one-box state. -/
theorem C7_w :
    (delete_selected_box st7 0).boxes = [] ∧
    (delete_selected_box st7 0).image_list_data.get? 0
      = some ⟨"a.jpg", "a.jpg", true, 0, some "a.txt"⟩ ∧
    (delete_selected_box st7 0).is_modified = true := by
  have h := C7_delete st7 ⟨0, "c", 1, 1, 9, 9⟩ ⟨"a.jpg", "a.jpg", true, 1, some "a.txt"⟩
    rfl (by decide) rfl
  exact ⟨h.1, h.2.1, h.2.2.2.2⟩

/-- C8: when the label-file write raises, the failure is surfaced as a
critical dialog and the modified flag is left exactly as it was (in
particular still true for a modified store); the flag is reset to
false only on the successful path, after the write loop. -/
theorem C8_savefail (env : Env) (st : AnnState) (p : String)
    (hp : st.current_image_path = some p) (hmod : st.is_modified = true) :
    (env.writeOk = false →
      (save_annot env st).errorShown = true ∧ (save_annot env st).is_modified = true) ∧
    (env.writeOk = true → (save_annot env st).is_modified = false) := by
  dsimp only [save_annot]
  rw [hp]
  constructor
  · intro hw
    rw [hw]
    dsimp only
    exact ⟨rfl, hmod⟩
  · intro hw
    rw [hw]
    dsimp only [updateRowUi]
    by_cases hr : (0 : ℤ) ≤ st.last_selected_row
    · rw [if_pos hr]
      rfl
    · rw [if_neg hr]
      rfl

/-- Witness for C8 on a modified state, against a failing and a
succeeding environment. -/
theorem C8_w :
    (save_annot envFail st8).errorShown = true ∧
    (save_annot envFail st8).is_modified = true ∧
    (save_annot envOk st8).is_modified = false := by
  have h1 := C8_savefail envFail st8 "a.jpg" rfl rfl
  have h2 := C8_savefail envOk st8 "a.jpg" rfl rfl
  exact ⟨(h1.1 rfl).1, (h1.1 rfl).2, h2.2 rfl⟩

/-- C10: every left-button release that ends a Drawing gesture — the
commit path, the too-small discard path, and the no-class-selected
error path alike — runs `cancel_drawing`, so draw mode is switched
off, the toolbar toggle is unchecked, and the start point and
provisional box are cleared; the operator must re-enable draw mode for
the next box. -/
theorem C10_release (st : AnnState) (px py : ℚ) (sp : ℤ × ℤ)
    (him : st.imageLoaded = true) (hpan : st.panning = false)
    (hdraw : st.drawing = true) (hsp : st.start_point = some sp) :
    (on_mouse_release st px py).drawing = false ∧
    (on_mouse_release st px py).btnDrawChecked = false ∧
    (on_mouse_release st px py).start_point = none ∧
    (on_mouse_release st px py).current_box = none := by
  dsimp only [on_mouse_release]
  rw [him, hpan, hdraw, hsp]
  dsimp only
  dsimp only [cancel_drawing, updateRowUi]
  by_cases hc : st.classIndex = -1
  · rw [if_pos hc]
    exact ⟨rfl, rfl, rfl, rfl⟩
  · rw [if_neg hc]
    exact ⟨rfl, rfl, rfl, rfl⟩

/-- Witness for C10: releasing at (3,3) from start point (5,5) gives a
2-pixel box, which is discarded — and draw mode still ends up off. -/
theorem C10_w :
    (on_mouse_release st9 3 3).drawing = false ∧
    (on_mouse_release st9 3 3).btnDrawChecked = false ∧
    (on_mouse_release st9 3 3).start_point = none ∧
    (on_mouse_release st9 3 3).current_box = none := by
  exact C10_release st9 3 3 (5, 5) rfl rfl rfl rfl

/-- C9: during a Drawing gesture every pointer position is clamped
into [0, image_w] x [0, image_h] before use, so the provisional
rectangle after a move lies inside the image and a commit on release
appends only a box inside the image (or leaves the store unchanged);
in particular, a gesture started at image point (5,5) on a 100x100
image at scale 1 and offset 0, released at screen (-100,-100), commits
the box clamped to x1 = 0, y1 = 0. -/
theorem C9_clamp (st : AnnState) (px py : ℚ) (sp : ℤ × ℤ)
    (him : st.imageLoaded = true) (hpan : st.panning = false)
    (hdraw : st.drawing = true) (hsp : st.start_point = some sp)
    (hW : 0 ≤ st.img_width) (hH : 0 ≤ st.img_height)
    (hsx0 : 0 ≤ sp.1) (hsxW : sp.1 ≤ st.img_width)
    (hsy0 : 0 ≤ sp.2) (hsyH : sp.2 ≤ st.img_height) :
    ((on_mouse_release st px py).boxes = st.boxes ∨
      ∃ nb, (on_mouse_release st px py).boxes = st.boxes ++ [nb] ∧
        0 ≤ nb.x1 ∧ nb.x1 ≤ nb.x2 ∧ nb.x2 ≤ st.img_width ∧
        0 ≤ nb.y1 ∧ nb.y1 ≤ nb.y2 ∧ nb.y2 ≤ st.img_height) ∧
    (∃ r', (on_mouse_move st px py).current_box = some r' ∧
      0 ≤ r'.1 ∧ r'.1 ≤ r'.2.2.1 ∧ r'.2.2.1 ≤ st.img_width ∧
      0 ≤ r'.2.1 ∧ r'.2.1 ≤ r'.2.2.2 ∧ r'.2.2.2 ≤ st.img_height) ∧
    (on_mouse_release st9 (-100) (-100)).boxes = [⟨0, "c", 0, 0, 5, 5⟩] := by
  refine ⟨?_, ?_, by decide⟩
  · dsimp only [on_mouse_release]
    rw [him, hpan, hdraw, hsp]
    dsimp only
    by_cases hc : st.classIndex = -1
    · rw [if_pos hc]
      exact Or.inl rfl
    · rw [if_neg hc]
      dsimp only [cancel_drawing, updateRowUi]
      by_cases hsz : 2 < max sp.1 (max 0 (min (screen_to_img_c st.scale_factor st.offX px) st.img_width))
            - min sp.1 (max 0 (min (screen_to_img_c st.scale_factor st.offX px) st.img_width))
          ∧ 2 < max sp.2 (max 0 (min (screen_to_img_c st.scale_factor st.offY py) st.img_height))
            - min sp.2 (max 0 (min (screen_to_img_c st.scale_factor st.offY py) st.img_height))
      · rw [if_pos hsz]
        by_cases hlsr : (0 : ℤ) ≤ st.last_selected_row
        · rw [if_pos hlsr]
          refine Or.inr ⟨_, rfl, ?_, ?_, ?_, ?_, ?_, ?_⟩
          · exact le_min hsx0 (le_max_left _ _)
          · exact le_trans (min_le_left _ _) (le_max_left _ _)
          · exact max_le hsxW (max_le hW (min_le_right _ _))
          · exact le_min hsy0 (le_max_left _ _)
          · exact le_trans (min_le_left _ _) (le_max_left _ _)
          · exact max_le hsyH (max_le hH (min_le_right _ _))
        · rw [if_neg hlsr]
          refine Or.inr ⟨_, rfl, ?_, ?_, ?_, ?_, ?_, ?_⟩
          · exact le_min hsx0 (le_max_left _ _)
          · exact le_trans (min_le_left _ _) (le_max_left _ _)
          · exact max_le hsxW (max_le hW (min_le_right _ _))
          · exact le_min hsy0 (le_max_left _ _)
          · exact le_trans (min_le_left _ _) (le_max_left _ _)
          · exact max_le hsyH (max_le hH (min_le_right _ _))
      · rw [if_neg hsz]
        exact Or.inl rfl
  · dsimp only [on_mouse_move]
    rw [him, hpan, hdraw, hsp]
    dsimp only
    refine ⟨_, rfl, ?_, ?_, ?_, ?_, ?_, ?_⟩
    · exact le_min hsx0 (le_max_left _ _)
    · exact le_trans (min_le_left _ _) (le_max_left _ _)
    · exact max_le hsxW (max_le hW (min_le_right _ _))
    · exact le_min hsy0 (le_max_left _ _)
    · exact le_trans (min_le_left _ _) (le_max_left _ _)
    · exact max_le hsyH (max_le hH (min_le_right _ _))

/-- Witness for C9 at the concrete mid-gesture state, released at a
screen position mapping far outside the image. -/
theorem C9_w :
    ((on_mouse_release st9 (-100) (-100)).boxes = st9.boxes ∨
      ∃ nb, (on_mouse_release st9 (-100) (-100)).boxes = st9.boxes ++ [nb] ∧
        0 ≤ nb.x1 ∧ nb.x1 ≤ nb.x2 ∧ nb.x2 ≤ st9.img_width ∧
        0 ≤ nb.y1 ∧ nb.y1 ≤ nb.y2 ∧ nb.y2 ≤ st9.img_height) ∧
    (on_mouse_release st9 (-100) (-100)).boxes = [⟨0, "c", 0, 0, 5, 5⟩] := by
  have h := C9_clamp st9 (-100) (-100) (5, 5) rfl rfl rfl rfl
    (by decide) (by decide) (by decide) (by decide) (by decide) (by decide)
  exact ⟨h.1, h.2.2⟩
